import Mathlib

/-!
Shallow embedding of the nophigene-drd4-analysis pipeline (Python sources
`src/analysis.py`, `src/gene_region_extraction.py`,
`src/helper_functions/filter_manifest_region.py`) and proofs about it.

Strings are manipulated through their character lists so that every
definition evaluates by kernel reduction.  pandas DataFrames are modelled
as Lean lists of row structures holding the columns the code reads; Python
floats are modelled as `Rat`.  `sys.exit` is modelled by the `LoadResult`
type below carrying the exit code and the diagnostic message.
-/

namespace Drd4

/-- Split a character list at every occurrence of the separator character.
Models Python `str.split(sep)` for a one-character separator: `"".split(c)`
gives `[""]`, and empty fields are kept. -/
def splitOnChar (sep : Char) : List Char → List (List Char)
  | [] => [[]]
  | c :: rest =>
    let r := splitOnChar sep rest
    if c == sep then [] :: r
    else
      match r with
      | [] => [[c]]
      | h :: t => (c :: h) :: t

/-- Parse a non-empty all-digit character list as a natural number.
Models Python `int(token)` on the plain digit tokens that occur in
well-formed region strings (`int` additionally accepts signs and
whitespace, which no well-formed region string contains). -/
def digitsToNat? (l : List Char) : Option Nat :=
  match l with
  | [] => none
  | _ =>
    l.foldl
      (fun acc c =>
        match acc with
        | none => none
        | some n => if c.isDigit then some (n * 10 + (c.toNat - 48)) else none)
      (some 0)

/-- Python `str.lstrip(chars)`: drop every leading character that occurs in
`chars` (a character set, not a literal prefix).  This is the normalization
`chrom.lstrip("chr")` applies in `filter_probes_by_region`. -/
def pyLstrip (s : String) (chars : String) : String :=
  String.mk (s.toList.dropWhile (fun c => chars.toList.contains c))

/-- Python `str.startswith(p)` / the `"chr"`-prefix test of the hg38 branch. -/
def pyStartsWith (s p : String) : Bool :=
  List.isPrefixOf p.toList s.toList

/-- Decidable equality for `Except`, so that the concrete evaluations below
go through `decide`. -/
instance exceptDecEq {ε α : Type} [DecidableEq ε] [DecidableEq α] :
    DecidableEq (Except ε α) := fun x y =>
  match x, y with
  | .ok a, .ok b => if h : a = b then .isTrue (by rw [h]) else .isFalse (by simp [h])
  | .error a, .error b => if h : a = b then .isTrue (by rw [h]) else .isFalse (by simp [h])
  | .ok _, .error _ => .isFalse (by simp)
  | .error _, .ok _ => .isFalse (by simp)

/-- One row of the Illumina manifest DataFrame, restricted to the columns
`filter_probes_by_region` reads: `CHR`/`MAPINFO` (hg19 coordinates) and
`CHR_hg38`/`Start_hg38` (hg38 coordinates), plus the probe identifier so
that distinct rows stay distinct. -/
structure ManifestEntry where
  ilmnID : String
  chr : String
  mapinfo : Int
  chr_hg38 : String
  start_hg38 : Int
  deriving DecidableEq, Repr

/-- `filter_probes_by_region(df, chrom, start, end, genome_build)` from
`src/helper_functions/filter_manifest_region.py` lines 30-62.  hg19: the
query chromosome is normalized with `chrom.lstrip("chr")` and rows are kept
when `CHR == chrom` (as strings) and `start <= MAPINFO <= end`; hg38: a
`"chr"` prefix is added to the query when absent and the hg38 columns are
used; any other build raises `ValueError`.  The pandas boolean-mask
selection is the stable `List.filter`. -/
def filter_probes_by_region (df : List ManifestEntry) (chrom : String)
    (start stop : Int) (genome_build : String) :
    Except String (List ManifestEntry) :=
  if genome_build == "hg19" then
    let c := pyLstrip chrom "chr"
    .ok (df.filter (fun r => r.chr == c && start ≤ r.mapinfo && r.mapinfo ≤ stop))
  else if genome_build == "hg38" then
    let c := if pyStartsWith chrom "chr" then chrom else "chr" ++ chrom
    .ok (df.filter (fun r => r.chr_hg38 == c && start ≤ r.start_hg38 && r.start_hg38 ≤ stop))
  else
    .error "Unsupported genome build. Use hg19 or hg38."

/-- Outcome of a loader call in `src/analysis.py`: either the returned
DataFrame, or process termination via `sys.exit` with the given exit code
and diagnostic message.  `sys.exit(msg)` with a string argument prints the
message and exits with status 1, so it is modelled as `exit 1 msg`;
`logger.error(msg)` followed by `sys.exit(1)` is modelled the same way. -/
inductive LoadResult (α : Type) where
  | ok : α → LoadResult α
  | exit : Nat → String → LoadResult α
  deriving DecidableEq, Repr

/-- One site yielded by the external variant reader (`allel.read_vcf`),
with the fields `load_variants` requests: CHROM, POS, REF, ALT (all
alternate alleles), QUAL, FILTER_PASS. -/
structure VariantSite where
  chrom : String
  pos : Int
  ref : String
  alts : List String
  qual : Rat
  filter_pass : Bool
  deriving DecidableEq, Repr

/-- One row of the DataFrame `load_variants` builds. -/
structure VariantRow where
  chrom : String
  pos : Int
  ref : String
  alt : Option String
  qual : Rat
  filter_pass : Bool
  deriving DecidableEq, Repr

/-- The per-site row construction of `load_variants` (`src/analysis.py`
lines 68-76): every field is copied, and `alt` is
`alts[0] if len(alts) > 0 else None`. -/
def variantRowOfSite (s : VariantSite) : VariantRow :=
  { chrom := s.chrom, pos := s.pos, ref := s.ref,
    alt := if h : 0 < s.alts.length then some (s.alts.get ⟨0, h⟩) else none,
    qual := s.qual, filter_pass := s.filter_pass }

/-- `load_variants(vcf_path, region)` from `src/analysis.py` lines 51-84.
The filesystem (`os.path.exists`) and the external reader `allel.read_vcf`
are interface parameters: `fsExists` answers path-existence queries and
`callset` is the list of sites the reader yields for the given file and
region (the reader performs the positional restriction itself).  The code
first checks path existence, then builds the row DataFrame, then exits if
it is empty, and otherwise returns it. -/
def load_variants (fsExists : String → Bool) (callset : List VariantSite)
    (vcf_path region : String) : LoadResult (List VariantRow) :=
  if !fsExists vcf_path then
    .exit 1 ("ERROR: VCF not found: " ++ vcf_path)
  else
    let df := callset.map variantRowOfSite
    if df.isEmpty then
      .exit 1 ("ERROR: No PASS variants found in " ++ region ++ " for " ++ vcf_path)
    else
      .ok df

/-- `os.path.basename` for the plain relative paths the pipeline uses:
the part after the last slash. -/
def os_basename (p : String) : String :=
  String.mk ((splitOnChar '/' p.toList).getLastD [])

/-- `os.path.dirname` for the plain relative paths the pipeline uses:
the part before the last slash (empty when there is no slash). -/
def os_dirname (p : String) : String :=
  String.mk (List.intercalate ['/'] ((splitOnChar '/' p.toList).dropLast))

/-- Whether a string ends in a slash. -/
def endsWithSlash (a : String) : Bool :=
  a.toList.getLastD ' ' == '/'

/-- `os.path.join(a, b)` for the relative paths the pipeline uses (the
absolute-second-argument case of `os.path.join` never arises here). -/
def os_path_join (a b : String) : String :=
  if a == "" then b
  else if endsWithSlash a then a ++ b
  else a ++ "/" ++ b

/-- The wide beta-value matrix returned by the external probe-processing
pipeline (`methylprep.run_pipeline` with `betas=True`): rows are probes
indexed by `IlmnID`, columns are samples.  Each row carries its cells as a
column-name/value association list. -/
structure BetaMatrix where
  columns : List String
  rows : List (String × List (String × Rat))
  deriving DecidableEq, Repr

/-- One row of the region manifest CSV
(`src/gene_data/drd4_epigenetics_hg19.csv`) restricted to the columns the
live code reads, under their post-rename names (`IlmnID` -> `probe_id`,
`CHR` -> `chrom`, `MAPINFO` -> `pos`, `UCSC_RefGene_Name` -> `gene`; the
rename only relabels columns and touches no cell). -/
structure ManifestCsvRow where
  probe_id : String
  chrom : String
  pos : Int
  gene : String
  deriving DecidableEq, Repr

/-- The region manifest table: its column-name list (pre-rename, as read
from the CSV) together with its rows. -/
structure ManifestTable where
  columns : List String
  rows : List ManifestCsvRow
  deriving DecidableEq, Repr

/-- The column rename applied to the region manifest
(`src/analysis.py` lines 173-179). -/
def rename_col (c : String) : String :=
  if c == "IlmnID" then "probe_id"
  else if c == "CHR" then "chrom"
  else if c == "MAPINFO" then "pos"
  else if c == "UCSC_RefGene_Name" then "gene"
  else c

/-- The columns `load_methylation` requires in the renamed manifest
(`src/analysis.py` line 183). -/
def requiredManifestCols : List String := ["probe_id", "chrom", "pos", "gene"]

/-- One row of the DataFrame `load_methylation` returns, restricted to the
canonical columns (`keep_columns` additionally selects annotation columns
when present; that projection keeps every row and is outside the row-level
model). -/
structure MethRow where
  probe_id : String
  beta : Rat
  chrom : String
  pos : Int
  gene : String
  deriving DecidableEq, Repr

/-- `load_methylation(idat_base, region, ...)` from `src/analysis.py`
lines 87-219 (the live code; the commented-out region-filtering tail is not
part of the function).  External collaborators are interface parameters:
`fsIsFile` answers `os.path.isfile`, `pipelineOut` is the beta matrix of
`methylprep.run_pipeline` (`none` models the pipeline raising), and
`manifestCsv` is the parsed region manifest CSV (`none` models
`pd.read_csv` raising).  Steps, in source order: split `idat_base` into
directory and sample name; check `<sample>_Grn.idat` then
`<sample>_Red.idat` exist, exiting on the first missing one; run the
pipeline; require a beta column named after the sample; extract that
column as `(probe_id, beta)` pairs; read and rename the region manifest;
require the canonical manifest columns; inner-join on `probe_id` in
left-frame order; return the merged rows.  The `region` argument is never
used by the live code. -/
def load_methylation (fsIsFile : String → Bool) (pipelineOut : Option BetaMatrix)
    (manifestCsv : Option ManifestTable) (idat_base : String) (region : String) :
    LoadResult (List MethRow) :=
  let data_dir := os_dirname idat_base
  let sample_name := os_basename idat_base
  let grn := os_path_join data_dir (sample_name ++ "_Grn.idat")
  let red := os_path_join data_dir (sample_name ++ "_Red.idat")
  if !fsIsFile grn then .exit 1 ("Missing IDAT file: " ++ grn)
  else if !fsIsFile red then .exit 1 ("Missing IDAT file: " ++ red)
  else
    match pipelineOut with
    | none => .exit 1 "run_pipeline failed"
    | some beta_values =>
      if !beta_values.columns.contains sample_name then
        .exit 1 ("No beta column named " ++ sample_name ++ " in output")
      else
        match manifestCsv with
        | none => .exit 1 "Failed to read region_manifest_file"
        | some manifest_region =>
          let manifestCols := manifest_region.columns.map rename_col
          let missing := requiredManifestCols.filter (fun c => !manifestCols.contains c)
          if !missing.isEmpty then
            .exit 1 "Region manifest is missing required columns"
          else
            let beta_df : List (String × Rat) :=
              beta_values.rows.filterMap
                (fun pr => (pr.2.lookup sample_name).map (fun b => (pr.1, b)))
            let merged := beta_df.flatMap (fun pb =>
              (manifest_region.rows.filter (fun m => m.probe_id == pb.1)).map
                (fun m => { probe_id := pb.1, beta := pb.2, chrom := m.chrom,
                            pos := m.pos, gene := m.gene }))
            .ok merged

/-- Parse one region string the way the loop body of `get_widest_region`
does (`src/gene_region_extraction.py` lines 68-71):
`chrom, rng = r.split(":")` requires exactly one `:`, `start, end =
map(int, rng.split("-"))` requires exactly one `-` and two integer tokens;
`none` models the `ValueError` the loop raises otherwise. -/
def parseRegionParts (r : String) : Option (String × Int × Int) :=
  match splitOnChar ':' r.toList with
  | [chromCs, rngCs] =>
    match splitOnChar '-' rngCs with
    | [sCs, eCs] =>
      match digitsToNat? sCs, digitsToNat? eCs with
      | some a, some b => some (String.mk chromCs, (a : Int), (b : Int))
      | _, _ => none
    | _ => none
  | _ => none

/-- The span `end - start` of a region string, when it parses. -/
def regionSpan (r : String) : Option Int :=
  (parseRegionParts r).map (fun p => p.2.2 - p.2.1)

/-- Whether a region string is well-formed for `get_widest_region`: it
parses and its bounds satisfy `start ≤ end`. -/
def wfRegion (r : String) : Bool :=
  match parseRegionParts r with
  | some p => p.2.1 ≤ p.2.2
  | none => false

/-- The loop of `get_widest_region`: fold over the region strings with the
running `max_span` (initially `0`) and `widest` (initially `None`),
updating both exactly when the current span strictly exceeds `max_span`.
The outer `Option` models the `ValueError` a malformed string raises. -/
def widestGo : List String → Int → Option String → Option (Option String)
  | [], _, widest => some widest
  | r :: rest, maxSpan, widest =>
    match parseRegionParts r with
    | none => none
    | some p =>
      let span := p.2.2 - p.2.1
      if span > maxSpan then widestGo rest span (some r)
      else widestGo rest maxSpan widest

/-- `get_widest_region(regions)` from `src/gene_region_extraction.py`
lines 62-75. -/
def get_widest_region (regions : List String) : Option (Option String) :=
  widestGo regions 0 none

/-- Whether `sub` occurs as a contiguous segment of `l`. -/
def listHasSegment (sub : List Char) : List Char → Bool
  | [] => sub.isEmpty
  | c :: rest => List.isPrefixOf sub (c :: rest) || listHasSegment sub rest

/-- Whether `sub` occurs as a contiguous substring of `s`. -/
def strContains (s sub : String) : Bool :=
  listHasSegment sub.toList s.toList

/-- C7: for every site yielded by the external variant reader, the row
built by `load_variants` stores as `alt` the first alternate allele when
one exists and `none` when the site declares zero alternates; the
construction is a total function (no out-of-range indexing) and ignores
every alternate beyond the first, since `List.head?` depends only on the
head of the list. -/
theorem c7_alt_allele_total (s : VariantSite) :
    (variantRowOfSite s).alt = s.alts.head? := by
  rcases s with ⟨c, p, ref, alts, q, f⟩
  cases alts with
  | nil => simp [variantRowOfSite]
  | cons a t => simp [variantRowOfSite]

/-- C5: calling `load_variants` on a path the filesystem reports as
absent exits with status 1 and the diagnostic `ERROR: VCF not found:
<path>`, for every callset and every region string — so the existence
check happens before the region is used in any way — and no result is
ever returned. -/
theorem c5_missing_vcf (fsExists : String → Bool) (callset : List VariantSite)
    (vcf_path region : String) (h : fsExists vcf_path = false) :
    load_variants fsExists callset vcf_path region =
      .exit 1 ("ERROR: VCF not found: " ++ vcf_path) ∧
    ∀ df, load_variants fsExists callset vcf_path region ≠ .ok df := by
  have h1 : load_variants fsExists callset vcf_path region =
      .exit 1 ("ERROR: VCF not found: " ++ vcf_path) := by
    simp [load_variants, h]
  refine ⟨h1, ?_⟩
  intro df
  rw [h1]
  simp

/-- Witness for C5 at a concrete input: a nonexistent path, a non-empty
callset and a malformed region string still produce the missing-file
exit. -/
theorem c5_missing_vcf_witness :
    load_variants (fun _ => false) [⟨"11", 638000, "A", ["G"], 50, true⟩]
      "data/absent.vcf.gz" "not-a-region" =
      .exit 1 "ERROR: VCF not found: data/absent.vcf.gz" ∧
    ∀ df, load_variants (fun _ => false) [⟨"11", 638000, "A", ["G"], 50, true⟩]
      "data/absent.vcf.gz" "not-a-region" ≠ .ok df :=
  c5_missing_vcf (fun _ => false) [⟨"11", 638000, "A", ["G"], 50, true⟩]
    "data/absent.vcf.gz" "not-a-region" rfl

/-- C4 counterexample: the chromosome token `"cc11"` lacks the literal
`"chr"` prefix, yet the hg19 normalization of `filter_probes_by_region`
(`chrom.lstrip("chr")`) removes its two leading characters anyway — so a
row whose `CHR` value is exactly the token is not retained.  This refutes
the part of the claim stating that exactly a leading literal `"chr"` is
stripped and nothing else is removed. -/
theorem c4_counterexample :
    pyStartsWith "cc11" "chr" = false ∧
    pyLstrip "cc11" "chr" = "11" ∧
    filter_probes_by_region [⟨"p1", "cc11", 5, "x", 0⟩] "cc11" 1 10 "hg19" =
      .ok [] := by decide

/-- Prepending the literal `"chr"` does not change the result of the
Python `lstrip("chr")` normalization, because `lstrip` drops every leading
character from the set. -/
theorem pyLstrip_chr_append (s : String) :
    pyLstrip ("chr" ++ s) "chr" = pyLstrip s "chr" := by
  unfold pyLstrip
  have h : ("chr" ++ s).toList = 'c' :: 'h' :: 'r' :: s.toList := by
    show ("chr" ++ s).data = _
    rw [String.data_append]
    rfl
  rw [h]
  simp [List.dropWhile]

/-- C4 amended: the hg19 chromosome normalization is Python
`str.lstrip("chr")`, which removes every leading character drawn from the
set `{c, h, r}` — not only a literal prefix.  The claimed algebraic
identity still holds: filtering with chromosome `"chr" ++ c` and with `c`
are indistinguishable, for every table, every bound pair and every
chromosome token. -/
theorem c4_amended_chr_invariance (df : List ManifestEntry) (chrom : String)
    (start stop : Int) :
    filter_probes_by_region df ("chr" ++ chrom) start stop "hg19" =
      filter_probes_by_region df chrom start stop "hg19" := by
  simp [filter_probes_by_region, pyLstrip_chr_append]

/-- Filtering a list twice with the same Boolean predicate is the same as
filtering it once. -/
theorem filter_self_idem {α : Type} (p : α → Bool) (l : List α) :
    (l.filter p).filter p = l.filter p := by
  rw [List.filter_filter]
  congr 1
  funext a
  exact Bool.and_self (p a)

/-- C8: the region filter is idempotent — whenever
`filter_probes_by_region` succeeds, feeding its output back through the
same chromosome, bounds and genome build returns that output unchanged.
This holds for the hg19 branch, the hg38 branch, and vacuously for the
`ValueError` branch. -/
theorem c8_filter_idempotent (df : List ManifestEntry) (chrom : String)
    (start stop : Int) (build : String) (out : List ManifestEntry)
    (h : filter_probes_by_region df chrom start stop build = .ok out) :
    filter_probes_by_region out chrom start stop build = .ok out := by
  unfold filter_probes_by_region at h ⊢
  by_cases h19 : (build == "hg19") = true
  · rw [if_pos h19] at h ⊢
    simp only [Except.ok.injEq] at h ⊢
    subst h
    exact filter_self_idem _ _
  · by_cases h38 : (build == "hg38") = true
    · rw [if_neg h19, if_pos h38] at h ⊢
      simp only [Except.ok.injEq] at h ⊢
      subst h
      exact filter_self_idem _ _
    · rw [if_neg h19, if_neg h38] at h
      exact absurd h (by simp)

/-- Witness for C8 at a concrete input: filtering the already-filtered
two-row table again changes nothing. -/
theorem c8_filter_idempotent_witness :
    filter_probes_by_region
      [⟨"p2", "11", 100, "chr11", 0⟩, ⟨"p3", "11", 200, "chr11", 0⟩]
      "11" 100 200 "hg19" =
    .ok [⟨"p2", "11", 100, "chr11", 0⟩, ⟨"p3", "11", 200, "chr11", 0⟩] :=
  c8_filter_idempotent
    [⟨"p1", "11", 99, "chr11", 0⟩, ⟨"p2", "11", 100, "chr11", 0⟩,
     ⟨"p3", "11", 200, "chr11", 0⟩, ⟨"p4", "11", 201, "chr11", 0⟩]
    "11" 100 200 "hg19"
    [⟨"p2", "11", 100, "chr11", 0⟩, ⟨"p3", "11", 200, "chr11", 0⟩]
    (by decide)

/-- C3 counterexample: with region chromosome `"hr1"` and bounds `[1, 10]`
(`1 ≤ 10`), the row `p1` — whose `CHR` value `"hr1"` is string-equal to the
region's chromosome and whose position 5 lies inside the bounds — is
excluded, while the row `p2` with `CHR` value `"1"`, which is not
string-equal to `"hr1"`, is retained.  Both directions of the claimed
membership equivalence fail, because the code compares rows against
`"hr1".lstrip("chr") = "1"`, not against the region's chromosome itself. -/
theorem c3_counterexample :
    filter_probes_by_region
      [⟨"p1", "hr1", 5, "x", 0⟩, ⟨"p2", "1", 5, "x", 0⟩] "hr1" 1 10 "hg19" =
      .ok [⟨"p2", "1", 5, "x", 0⟩] ∧
    ("hr1" : String) ≠ "1" ∧ (1 : Int) ≤ 5 ∧ (5 : Int) ≤ 10 ∧ (1 : Int) ≤ 10 := by
  decide

/-- C3 amended: for every table, every chromosome token `c` and bounds
`s ≤ e`, the hg19 region filter keeps exactly the rows whose `CHR` is
string-equal to the `lstrip("chr")`-normalization of `c` — which is `c`
itself whenever `c` begins with no characters from the set `{c, h, r}` —
and whose `MAPINFO` lies in the closed interval `[s, e]`, both bounds
included; the kept rows form a sublist of the input, i.e. they keep their
original relative order. -/
theorem c3_amended_filter_exactness (df : List ManifestEntry) (c : String)
    (s e : Int) (out : List ManifestEntry) (hse : s ≤ e)
    (h : filter_probes_by_region df c s e "hg19" = .ok out) :
    (∀ r, r ∈ out ↔
      (r ∈ df ∧ r.chr = pyLstrip c "chr" ∧ s ≤ r.mapinfo ∧ r.mapinfo ≤ e)) ∧
    out.Sublist df := by
  unfold filter_probes_by_region at h
  simp only [if_true, beq_self_eq_true, Except.ok.injEq] at h
  constructor
  · intro r
    rw [← h]
    simp [List.mem_filter, and_assoc]
  · rw [← h]
    exact List.filter_sublist df

/-- Witness for C3 (amended): the boundary example of the specification
with a `"chr"`-prefixed query — region `(chr11, 100, 200)` against rows
with `CHR` value `"11"` at positions 99, 100, 200, 201 retains exactly the
rows at 100 and 200, in order, the comparison target being
`"chr11".lstrip("chr") = "11"`. -/
theorem c3_amended_filter_exactness_witness :
    (∀ r, r ∈ [(⟨"p2", "11", 100, "chr11", 0⟩ : ManifestEntry),
               ⟨"p3", "11", 200, "chr11", 0⟩] ↔
      (r ∈ [(⟨"p1", "11", 99, "chr11", 0⟩ : ManifestEntry),
            ⟨"p2", "11", 100, "chr11", 0⟩, ⟨"p3", "11", 200, "chr11", 0⟩,
            ⟨"p4", "11", 201, "chr11", 0⟩] ∧
       r.chr = pyLstrip "chr11" "chr" ∧ 100 ≤ r.mapinfo ∧ r.mapinfo ≤ 200)) ∧
    List.Sublist
      [(⟨"p2", "11", 100, "chr11", 0⟩ : ManifestEntry), ⟨"p3", "11", 200, "chr11", 0⟩]
      [⟨"p1", "11", 99, "chr11", 0⟩, ⟨"p2", "11", 100, "chr11", 0⟩,
       ⟨"p3", "11", 200, "chr11", 0⟩, ⟨"p4", "11", 201, "chr11", 0⟩] :=
  c3_amended_filter_exactness
    [⟨"p1", "11", 99, "chr11", 0⟩, ⟨"p2", "11", 100, "chr11", 0⟩,
     ⟨"p3", "11", 200, "chr11", 0⟩, ⟨"p4", "11", 201, "chr11", 0⟩]
    "chr11" 100 200
    [⟨"p2", "11", 100, "chr11", 0⟩, ⟨"p3", "11", 200, "chr11", 0⟩]
    (by decide) (by decide)

/-- C10: when the beta matrix of the external pipeline has no column named
after the sample (the basename of the IDAT path prefix), `load_methylation`
terminates the process with status 1, the diagnostic names the expected
column, and no result is returned. -/
theorem c10_missing_beta_column (fsIsFile : String → Bool) (mat : BetaMatrix)
    (manifestCsv : Option ManifestTable) (idat_base region : String)
    (hg : fsIsFile (os_path_join (os_dirname idat_base)
            (os_basename idat_base ++ "_Grn.idat")) = true)
    (hr : fsIsFile (os_path_join (os_dirname idat_base)
            (os_basename idat_base ++ "_Red.idat")) = true)
    (hcol : mat.columns.contains (os_basename idat_base) = false) :
    load_methylation fsIsFile (some mat) manifestCsv idat_base region =
      .exit 1 ("No beta column named " ++ os_basename idat_base ++ " in output") ∧
    ∀ rows, load_methylation fsIsFile (some mat) manifestCsv idat_base region ≠
      .ok rows := by
  have h1 : load_methylation fsIsFile (some mat) manifestCsv idat_base region =
      .exit 1 ("No beta column named " ++ os_basename idat_base ++ " in output") := by
    have hcol2 : os_basename idat_base ∉ mat.columns := by simpa using hcol
    simp [load_methylation, hg, hr, hcol2]
  refine ⟨h1, ?_⟩
  intro rows
  rw [h1]
  simp

/-- Witness for C10 at a concrete input: both IDAT files exist, the beta
matrix only has a column `S2`, and the sample name is `S`. -/
theorem c10_missing_beta_column_witness :
    load_methylation (fun _ => true) (some ⟨["S2"], []⟩) none "data/S" "11:1-2" =
      .exit 1 ("No beta column named " ++ os_basename "data/S" ++ " in output") ∧
    ∀ rows, load_methylation (fun _ => true) (some ⟨["S2"], []⟩) none "data/S"
      "11:1-2" ≠ .ok rows :=
  c10_missing_beta_column (fun _ => true) ⟨["S2"], []⟩ none "data/S" "11:1-2"
    rfl rfl (by decide)

/-- C6 counterexample: with `<prefix>_Grn.idat` missing and
`<prefix>_Red.idat` present, `load_methylation` exits with status 1 but its
diagnostic is `Missing IDAT file: data/S_Grn.idat`, which does not contain
the Red path — refuting the part of the claim stating that the diagnostic
names both expected paths. -/
theorem c6_counterexample :
    load_methylation (fun p => p == "data/S_Red.idat") none none "data/S" "11:1-2" =
      .exit 1 "Missing IDAT file: data/S_Grn.idat" ∧
    strContains "Missing IDAT file: data/S_Grn.idat" "data/S_Red.idat" = false ∧
    (fun p => p == "data/S_Red.idat") "data/S_Red.idat" = true := by decide

/-- C6 amended: when `<prefix>_Grn.idat` is missing, `load_methylation`
exits with status 1 and a diagnostic naming that path; when the Grn file
exists but `<prefix>_Red.idat` is missing, it exits with status 1 and a
diagnostic naming the Red path.  In each case the diagnostic names the
(first) missing path only, not both expected paths. -/
theorem c6_amended_missing_idat (fsIsFile : String → Bool)
    (pipelineOut : Option BetaMatrix) (manifestCsv : Option ManifestTable)
    (idat_base region : String) :
    (fsIsFile (os_path_join (os_dirname idat_base)
        (os_basename idat_base ++ "_Grn.idat")) = false →
      load_methylation fsIsFile pipelineOut manifestCsv idat_base region =
        .exit 1 ("Missing IDAT file: " ++ os_path_join (os_dirname idat_base)
          (os_basename idat_base ++ "_Grn.idat"))) ∧
    (fsIsFile (os_path_join (os_dirname idat_base)
        (os_basename idat_base ++ "_Grn.idat")) = true →
      fsIsFile (os_path_join (os_dirname idat_base)
        (os_basename idat_base ++ "_Red.idat")) = false →
      load_methylation fsIsFile pipelineOut manifestCsv idat_base region =
        .exit 1 ("Missing IDAT file: " ++ os_path_join (os_dirname idat_base)
          (os_basename idat_base ++ "_Red.idat"))) := by
  constructor
  · intro hg
    simp [load_methylation, hg]
  · intro hg hr
    simp [load_methylation, hg, hr]

/-- Witness for C6 (amended) at a concrete input: a filesystem where only
the Red IDAT exists makes the loader exit naming the Grn path. -/
theorem c6_amended_missing_idat_witness :
    load_methylation (fun p => p == "data/T_Red.idat") none none "data/T" "11:1-2" =
      .exit 1 ("Missing IDAT file: " ++ os_path_join (os_dirname "data/T")
        (os_basename "data/T" ++ "_Grn.idat")) :=
  (c6_amended_missing_idat (fun p => p == "data/T_Red.idat") none none "data/T"
    "11:1-2").1 (by decide)

/-- C2 counterexample: `load_methylation` returns an empty row sequence to
the caller with no error when the external pipeline reports no probe rows
for the sample — the empty result is not reported as an error condition by
this loader. -/
theorem c2_counterexample :
    load_methylation (fun _ => true) (some ⟨["S"], []⟩)
      (some ⟨["IlmnID", "CHR", "MAPINFO", "UCSC_RefGene_Name"], []⟩)
      "data/S" "11:637269-640706" = .ok [] := by decide

/-- C2 amended: the two loaders do not share an empty-result policy.
`load_variants` treats an empty result set as fatal — it exits with status
1 and a diagnostic naming the region and the path, and never returns an
empty table — while `load_methylation` returns an empty merged row
sequence to the caller without any error. -/
theorem c2_amended_empty_policy :
    (∀ (fsExists : String → Bool) (vcf_path region : String),
      fsExists vcf_path = true →
      load_variants fsExists [] vcf_path region =
        .exit 1 ("ERROR: No PASS variants found in " ++ region ++ " for " ++
          vcf_path) ∧
      ∀ df, load_variants fsExists [] vcf_path region ≠ .ok df) ∧
    (load_methylation (fun _ => true) (some ⟨["S"], [("cg1", [("S", 1)])]⟩)
      (some ⟨["IlmnID", "CHR", "MAPINFO", "UCSC_RefGene_Name"], []⟩)
      "data/S" "11:637269-640706" = .ok []) := by
  constructor
  · intro fsExists vcf_path region hex
    have h1 : load_variants fsExists [] vcf_path region =
        .exit 1 ("ERROR: No PASS variants found in " ++ region ++ " for " ++
          vcf_path) := by
      unfold load_variants
      rw [hex]
      simp
    refine ⟨h1, ?_⟩
    intro df
    rw [h1]
    simp
  · decide

/-- Witness for C2 (amended) at a concrete input: an existing VCF whose
reader yields zero sites in the region makes `load_variants` exit with the
no-data diagnostic. -/
theorem c2_amended_empty_policy_witness :
    load_variants (fun _ => true) [] "data/a.vcf.gz" "11:637269-640706" =
      .exit 1 "ERROR: No PASS variants found in 11:637269-640706 for data/a.vcf.gz" :=
  (c2_amended_empty_policy.1 (fun _ => true) "data/a.vcf.gz" "11:637269-640706"
    rfl).1

/-- C1: evaluated at a concrete sample, `load_methylation` returns a probe
record at position 999999, outside the requested region
`11:637269-640706` — the live code never applies the region filter its
docstring promises — and, in general, its result does not depend on the
`region` argument at all. -/
theorem c1_region_never_filtered :
    (load_methylation (fun _ => true)
      (some ⟨["R01"], [("cg00000001", [("R01", mkRat 42 100)])]⟩)
      (some ⟨["IlmnID", "CHR", "MAPINFO", "UCSC_RefGene_Name"],
             [⟨"cg00000001", "11", 999999, "DRD4"⟩]⟩)
      "data/R01" "11:637269-640706" =
      .ok [⟨"cg00000001", mkRat 42 100, "11", 999999, "DRD4"⟩] ∧
    ¬ ((637269 : Int) ≤ 999999 ∧ (999999 : Int) ≤ 640706)) ∧
    ∀ (fsIsFile : String → Bool) (pipelineOut : Option BetaMatrix)
      (manifestCsv : Option ManifestTable) (idat_base r1 r2 : String),
      load_methylation fsIsFile pipelineOut manifestCsv idat_base r1 =
        load_methylation fsIsFile pipelineOut manifestCsv idat_base r2 := by
  refine ⟨by decide, ?_⟩
  intro fsIsFile pipelineOut manifestCsv idat_base r1 r2
  rfl

/-- A well-formed region string has a non-negative span. -/
theorem wfRegion_span (r : String) (h : wfRegion r = true) :
    ∃ sp, regionSpan r = some sp ∧ 0 ≤ sp := by
  unfold wfRegion at h
  cases hp : parseRegionParts r with
  | none => rw [hp] at h; simp at h
  | some p =>
    rw [hp] at h
    refine ⟨p.2.2 - p.2.1, by unfold regionSpan; rw [hp]; rfl, ?_⟩
    have hle : p.2.1 ≤ p.2.2 := by simpa using h
    omega

/-- Invariant of the `get_widest_region` loop: starting from a
non-negative running maximum `m` and candidate `w`, over well-formed
strings the loop either leaves the candidate unchanged (when no span
strictly exceeds `m`) or ends on the first string whose span strictly
exceeds every span before it and is maximal over the whole list. -/
theorem widestGo_spec :
    ∀ (l : List String) (m : Int) (w : Option String),
      (∀ r ∈ l, wfRegion r = true) → 0 ≤ m →
      ((∀ r ∈ l, ∀ sr, regionSpan r = some sr → sr ≤ m) ∧
        widestGo l m w = some w)
      ∨ (∃ w2 M, widestGo l m w = some (some w2) ∧ w2 ∈ l ∧
          regionSpan w2 = some M ∧ m < M ∧
          (∀ r ∈ l, ∀ sr, regionSpan r = some sr → sr ≤ M) ∧
          ∃ l1 l2, l = l1 ++ w2 :: l2 ∧
            (∀ r ∈ l1, ∀ sr, regionSpan r = some sr → sr < M))
  | [], _, _, _, _ => Or.inl ⟨by simp, rfl⟩
  | r :: rest, m, w, hwf, hm => by
    have hwfr := hwf r (List.mem_cons_self r rest)
    obtain ⟨p, hp, hle⟩ : ∃ p, parseRegionParts r = some p ∧ p.2.1 ≤ p.2.2 := by
      unfold wfRegion at hwfr
      cases hp : parseRegionParts r with
      | none => rw [hp] at hwfr; simp at hwfr
      | some p => rw [hp] at hwfr; exact ⟨p, rfl, by simpa using hwfr⟩
    have hspan_r : regionSpan r = some (p.2.2 - p.2.1) := by
      unfold regionSpan; rw [hp]; rfl
    have hwfrest : ∀ x ∈ rest, wfRegion x = true :=
      fun x hx => hwf x (List.mem_cons_of_mem r hx)
    have hstep : widestGo (r :: rest) m w =
        if p.2.2 - p.2.1 > m then widestGo rest (p.2.2 - p.2.1) (some r)
        else widestGo rest m w := by
      rw [widestGo, hp]
    by_cases hgt : p.2.2 - p.2.1 > m
    · rw [hstep, if_pos hgt]
      have hm2 : 0 ≤ p.2.2 - p.2.1 := by omega
      rcases widestGo_spec rest (p.2.2 - p.2.1) (some r) hwfrest hm2 with
        ⟨hall, heq⟩ | ⟨w2, M, heq, hmem, hspan, hlt, hbound, l1, l2, hsplit, hsmall⟩
      · right
        refine ⟨r, p.2.2 - p.2.1, heq, List.mem_cons_self r rest, hspan_r, hgt,
          ?_, [], rest, rfl, by simp⟩
        intro x hx sx hsx
        rcases List.mem_cons.mp hx with hx | hx
        · subst hx; rw [hspan_r] at hsx; injection hsx with hsx; omega
        · exact hall x hx sx hsx
      · right
        refine ⟨w2, M, heq, List.mem_cons_of_mem r hmem, hspan, by omega, ?_,
          r :: l1, l2, by rw [hsplit, List.cons_append], ?_⟩
        · intro x hx sx hsx
          rcases List.mem_cons.mp hx with hx | hx
          · subst hx; rw [hspan_r] at hsx; injection hsx with hsx; omega
          · exact hbound x hx sx hsx
        · intro x hx sx hsx
          rcases List.mem_cons.mp hx with hx | hx
          · subst hx; rw [hspan_r] at hsx; injection hsx with hsx; omega
          · exact hsmall x hx sx hsx
    · rw [hstep, if_neg hgt]
      rcases widestGo_spec rest m w hwfrest hm with
        ⟨hall, heq⟩ | ⟨w2, M, heq, hmem, hspan, hlt, hbound, l1, l2, hsplit, hsmall⟩
      · left
        refine ⟨?_, heq⟩
        intro x hx sx hsx
        rcases List.mem_cons.mp hx with hx | hx
        · subst hx; rw [hspan_r] at hsx; injection hsx with hsx; omega
        · exact hall x hx sx hsx
      · right
        refine ⟨w2, M, heq, List.mem_cons_of_mem r hmem, hspan, hlt, ?_,
          r :: l1, l2, by rw [hsplit, List.cons_append], ?_⟩
        · intro x hx sx hsx
          rcases List.mem_cons.mp hx with hx | hx
          · subst hx; rw [hspan_r] at hsx; injection hsx with hsx; omega
          · exact hbound x hx sx hsx
        · intro x hx sx hsx
          rcases List.mem_cons.mp hx with hx | hx
          · subst hx; rw [hspan_r] at hsx; injection hsx with hsx; omega
          · exact hsmall x hx sx hsx

/-- C9: over a list of well-formed region strings, `get_widest_region`
finishes without raising, and either returns `None` — exactly when the
list is empty or every region has span zero — or returns the earliest
region whose span is strictly positive and maximal over the list: the
result is an element of the list, its span `M` is positive, no span
exceeds `M`, and every region strictly before it in the list has span
strictly below `M`. -/
theorem c9_widest_region (regions : List String)
    (hwf : ∀ r ∈ regions, wfRegion r = true) :
    (get_widest_region regions = some none ∧
      ∀ r ∈ regions, regionSpan r = some 0)
    ∨ (∃ w M, get_widest_region regions = some (some w) ∧ w ∈ regions ∧
        regionSpan w = some M ∧ 0 < M ∧
        (∀ r ∈ regions, ∀ sr, regionSpan r = some sr → sr ≤ M) ∧
        ∃ l1 l2, regions = l1 ++ w :: l2 ∧
          (∀ r ∈ l1, ∀ sr, regionSpan r = some sr → sr < M)) := by
  rcases widestGo_spec regions 0 none hwf le_rfl with
    ⟨hall, heq⟩ | ⟨w2, M, heq, hmem, hspan, hlt, hbound, l1, l2, hsplit, hsmall⟩
  · left
    refine ⟨heq, ?_⟩
    intro r hr
    obtain ⟨sp, hsp, hsp0⟩ := wfRegion_span r (hwf r hr)
    have hle0 := hall r hr sp hsp
    have hz : sp = 0 := by omega
    rw [hsp, hz]
  · right
    exact ⟨w2, M, heq, hmem, hspan, hlt, hbound, l1, l2, hsplit, hsmall⟩

/-- Witness for C9 at a concrete input: among `11:5-5`, `7:10-30`,
`2:0-20` (spans 0, 20, 20) the loop returns the earliest maximal-span
region `7:10-30`. -/
theorem c9_widest_region_witness :
    (get_widest_region ["11:5-5", "7:10-30", "2:0-20"] = some none ∧
      ∀ r ∈ ["11:5-5", "7:10-30", "2:0-20"], regionSpan r = some 0)
    ∨ (∃ w M, get_widest_region ["11:5-5", "7:10-30", "2:0-20"] =
          some (some w) ∧ w ∈ ["11:5-5", "7:10-30", "2:0-20"] ∧
        regionSpan w = some M ∧ 0 < M ∧
        (∀ r ∈ ["11:5-5", "7:10-30", "2:0-20"], ∀ sr,
          regionSpan r = some sr → sr ≤ M) ∧
        ∃ l1 l2, ["11:5-5", "7:10-30", "2:0-20"] = l1 ++ w :: l2 ∧
          (∀ r ∈ l1, ∀ sr, regionSpan r = some sr → sr < M)) :=
  c9_widest_region ["11:5-5", "7:10-30", "2:0-20"] (by decide)

end Drd4
